import Mathlib

/-!
Shallow embedding of the 101.ru console player (`main.go`) and proofs about
its adaptive synchronization / playback-control engine.

Strings are modelled as `List Char`.  The two Go regular expressions that the
fetcher uses are literal-pattern searches and are modelled directly:
`http\:(.)` matches the five marker characters followed by one non-newline
character, anywhere in the string; the double-segment regexp counts leftmost
non-overlapping occurrences of the literal path fragment, exactly as
`FindAllStringSubmatch` does.  Machine integers (`uint64`) are `Nat` with an
explicit `% 2^64` where the source relies on wraparound.
-/

set_option maxRecDepth 4000

namespace Ply101

/-- Playback status constants from `main.go`. -/
def STATUS_PLAY : Nat := 0x100

/-- Playback status constant for pause. -/
def STATUS_PAUSE : Nat := 0x200

/-- Playback status constant for stop. -/
def STATUS_STOP : Nat := 0x300

/-- The channel base origin prepended to relative audio filenames. -/
def origin : List Char := "http://101.ru".data

/-- The scheme marker the regexp `http\:(.)` looks for. -/
def httpMarker : List Char := "http:".data

/-- The literal path fragment of the double-segment workaround. -/
def fragment : List Char := "/vardata/modules/musicdb/files/".data

/-- Does the regexp `http\:(.)` match at the head of `l`: the marker followed
by one more (non-newline) character.  Go's `.` does not match a newline. -/
def matchAt (l : List Char) : Bool :=
  match l.drop httpMarker.length with
  | [] => false
  | c :: _ => httpMarker.isPrefixOf l && c != '\n'

/-- `FindStringSubmatch` for `http\:(.)`: does the pattern match anywhere? -/
def hasHttpMatch : List Char → Bool
  | [] => false
  | c :: rest => matchAt (c :: rest) || hasHttpMatch rest

/-- main.go:501-508: prepend the origin unless the regexp `http\:(.)` finds a
match somewhere in the filename. -/
def addOrigin (f : List Char) : List Char :=
  if hasHttpMatch f then f else origin ++ f

/-- Occurrence counting of `fragment` as `FindAllStringSubmatch` performs it:
leftmost matches, continuing after the end of each match.  The first argument
is the number of characters still to skip after a match. -/
def countFragSkip : Nat → List Char → Nat
  | _, [] => 0
  | skip + 1, _ :: rest => countFragSkip skip rest
  | 0, c :: rest =>
    if fragment.isPrefixOf (c :: rest) then
      1 + countFragSkip (fragment.length - 1) rest
    else
      countFragSkip 0 rest

/-- Number of (leftmost, non-overlapping) occurrences of `fragment`. -/
def countFrag (l : List Char) : Nat := countFragSkip 0 l

/-- `strings.Replace(s, fragment, "", 1)`: delete the first occurrence. -/
def replaceFirstFrag : List Char → List Char
  | [] => []
  | c :: rest =>
    if fragment.isPrefixOf (c :: rest) then rest.drop (fragment.length - 1)
    else c :: replaceFirstFrag rest

/-- main.go:510-516: collapse the duplicated path fragment, but only when the
regexp finds exactly two occurrences. -/
def collapseDouble (u : List Char) : List Char :=
  if countFrag u = 2 then replaceFirstFrag u else u

/-- The complete URL normalization the fetcher applies to the audio filename:
origin prepending followed by double-segment collapsing. -/
def normalizePlayUrl (f : List Char) : List Char := collapseDouble (addOrigin f)

/-- Modulus of the Go `uint64` type. -/
def U64 : Nat := 18446744073709551616

/-- Wrapping `uint64` subtraction (for `a, b < U64`). -/
def subU64 (a b : Nat) : Nat := (U64 + a - b) % U64

/-- main.go:518-525: next fetch period from the stat block of a successful
fetch. `diff` is the wrapping uint64 difference `finishSong - serverTime`. -/
def nextFetchOnSuccess (finishSong serverTime : Nat) : Nat :=
  let diff := subU64 finishSong serverTime
  if diff < 5 ∨ diff > 1800 then 5 else diff - 3

/-- One audio asset of the JSON envelope (`trackuid`, `filename`). -/
structure TrackAudio where
  trackUid : Nat
  filename : List Char

/-- Album block of the JSON envelope. -/
structure TrackAlbum where
  title : List Char
  releaseDate : List Char

/-- Stat block of the JSON envelope. -/
structure TrackStat where
  startSong : Nat
  finishSong : Nat
  serverTime : Nat

/-- About block of the JSON envelope. -/
structure TrackAbout where
  title : List Char
  artist : List Char
  audio : List TrackAudio
  album : TrackAlbum

/-- Result block of the JSON envelope. -/
structure TrackResult where
  about : TrackAbout
  stat : TrackStat

/-- The JSON envelope `TrackInfo` of `getTrackOnAir`. -/
structure TrackInfo where
  status : Nat
  result : TrackResult
  errorCode : Nat

/-- The retained current-track fields of the `go101` object. -/
structure Go101TrackInfo where
  trackUid : Nat
  artist : List Char
  title : List Char
  album : List Char
  albumDate : List Char
  playURL : List Char

/-- The mutable fields of the `go101` object that the engine touches:
the retained current track, the last track uid that triggered a (re)start,
the playback status word and the next fetch interval. -/
structure Go101 where
  currentTrack : Go101TrackInfo
  trackUid : Nat
  status : Nat
  nextFetch : Nat

/-- How the body of the HTTP response behaves under `json.Unmarshal`:
either unmarshalling fails (malformed or empty JSON) or it yields a
`TrackInfo` value. -/
inductive FetchBody where
  | malformed
  | parsed (ti : TrackInfo)

/-- Outcome of `http.Get` plus body reading: a transport error, or a response
carrying an HTTP status code and a body. -/
inductive FetchOutcome where
  | netError
  | response (statusCode : Nat) (body : FetchBody)

/-- main.go:474-535 `FetchChannelInfo`: the try/catch block.  Every panic
(transport error, unmarshal error, indexing an empty audio list) fires before
any field of the object is mutated, and the catch handler only sets
`NextFetch = 5`.  The HTTP status code of a response is never inspected. -/
def fetchChannelInfo (st : Go101) (o : FetchOutcome) : Go101 :=
  match o with
  | .netError => { st with nextFetch := 5 }
  | .response _ .malformed => { st with nextFetch := 5 }
  | .response _ (.parsed ti) =>
    match ti.result.about.audio with
    | [] => { st with nextFetch := 5 }
    | a :: _ =>
      { st with
        currentTrack :=
          { trackUid := a.trackUid
            title := ti.result.about.title
            artist := ti.result.about.artist
            album := ti.result.about.album.title
            albumDate := ti.result.about.album.releaseDate
            playURL := normalizePlayUrl a.filename }
        nextFetch := nextFetchOnSuccess ti.result.stat.finishSong ti.result.stat.serverTime }

/-- main.go:551-557 `Pause`: mute and set the pause status. -/
def pause (st : Go101) : Go101 := { st with status := STATUS_PAUSE }

/-- main.go:560-565 `Resume`: unmute and set the play status. -/
def resume (st : Go101) : Go101 := { st with status := STATUS_PLAY }

/-- main.go:568-574 `Stop`: stop the backend (twice) and set the stop status. -/
def stopPlay (st : Go101) : Go101 := { st with status := STATUS_STOP }

/-- main.go:538-548 `Play`: start the stream, record the uid of the track that
triggered this (re)start, and keep the pause status if it was set. -/
def play (st : Go101) : Go101 :=
  let st1 := { st with trackUid := st.currentTrack.trackUid }
  if st1.status = STATUS_PAUSE then pause st1 else { st1 with status := STATUS_PLAY }

/-- main.go:402-414 `attach` hotkey handler: resume from stop/pause, else pause. -/
def toggle (st : Go101) : Go101 :=
  if st.status = STATUS_STOP ∨ st.status = STATUS_PAUSE then resume st else pause st

/-- One tick of `Sleep` (main.go:580-583): the counter advances only when the
status word reads `STATUS_PLAY`. -/
def sleepStep (status counter : Nat) : Nat :=
  if status = STATUS_PLAY then counter + 1 else counter

/-- The `Sleep` loop (main.go:577-588) with explicit fuel: each iteration
consumes one one-second tick, updates the counter from the status read at that
tick, and exits as soon as the counter reaches the target.  Returns the index
of the tick on which the loop exits, or `none` if the fuel runs out. -/
def sleepRun (stateAt : Nat → Nat) (s : Nat) : Nat → Nat → Nat → Option Nat
  | 0, _, _ => none
  | fuel + 1, tick, counter =>
    let counter2 := sleepStep (stateAt (tick + 1)) counter
    if s ≤ counter2 then some (tick + 1)
    else sleepRun stateAt s fuel (tick + 1) counter2

/-- `Sleep s` started from tick 0 and counter 0. -/
def sleepTicks (stateAt : Nat → Nat) (s fuel : Nat) : Option Nat :=
  sleepRun stateAt s fuel 0 0

/-- One iteration of the playing loop (main.go:316-326), given the fetch
outcome: fetch, compare the fetched uid with the last (re)start uid, and on a
difference emit one notification (counted) and stop-then-play.  Returns the
new state, whether a restart happened, and the notification count. -/
def loopIter (st : Go101) (o : FetchOutcome) : Go101 × Bool × Nat :=
  let st1 := fetchChannelInfo st o
  if st1.trackUid ≠ st1.currentTrack.trackUid then
    (play (stopPlay st1), true, 1)
  else
    (st1, false, 0)

/-- The forced state sequence of spec property P3: paused at ticks 3-6,
playing at every other tick. -/
def pausedMidway (t : Nat) : Nat :=
  if 3 ≤ t ∧ t ≤ 6 then STATUS_PAUSE else STATUS_PLAY

/-- Wrapping subtraction is plain subtraction when no wrap occurs. -/
lemma subU64_of_le (a b : Nat) (hba : b ≤ a) (ha : a < U64) : subU64 a b = a - b := by
  simp only [subU64, U64] at *
  omega

/-- C1: interval policy on a successful fetch.  With `diff = finishSong -
serverTime`, the computed interval is 5 when `diff < 5` or `diff > 1800` and
`diff - 3` otherwise; for every `serverTime ≤ finishSong` it is never 0; the
eight concrete diff values of spec property P1 yield the expected intervals. -/
theorem interval_policy :
    (∀ f s : Nat, s ≤ f → f < U64 →
      nextFetchOnSuccess f s = (if f - s < 5 ∨ f - s > 1800 then 5 else f - s - 3) ∧
      nextFetchOnSuccess f s ≠ 0) ∧
    nextFetchOnSuccess 1000 1000 = 5 ∧
    nextFetchOnSuccess 1004 1000 = 5 ∧
    nextFetchOnSuccess 1005 1000 = 2 ∧
    nextFetchOnSuccess 1006 1000 = 3 ∧
    nextFetchOnSuccess 2797 1000 = 1794 ∧
    nextFetchOnSuccess 2800 1000 = 1797 ∧
    nextFetchOnSuccess 2801 1000 = 5 ∧
    nextFetchOnSuccess 1900 1000 = 897 := by
  refine ⟨?_, by decide, by decide, by decide, by decide,
    by decide, by decide, by decide, by decide⟩
  intro f s hsf hf
  have h : subU64 f s = f - s := subU64_of_le f s hsf hf
  simp only [nextFetchOnSuccess, h]
  refine ⟨trivial, ?_⟩
  split_ifs with hc
  · decide
  · omega

/-- C1 witness: the interval policy applied at `finishSong = 1900`,
`serverTime = 1000`. -/
theorem interval_policy_witness :
    nextFetchOnSuccess 1900 1000 =
      (if (1900 - 1000 : Nat) < 5 ∨ (1900 - 1000 : Nat) > 1800 then 5
       else 1900 - 1000 - 3) ∧
    nextFetchOnSuccess 1900 1000 ≠ 0 :=
  interval_policy.1 1900 1000 (by decide) (by decide)

/-- C2: the pause-aware wait.  A tick increments the counter exactly when the
status reads `STATUS_PLAY` (so it never increases while paused or stopped),
and with `targetSeconds = 10` and the state paused during ticks 3-6 inclusive
the wait returns after exactly 14 ticks. -/
theorem sleep_pause_aware :
    (∀ st c : Nat, st ≠ STATUS_PLAY → sleepStep st c = c) ∧
    (∀ c : Nat, sleepStep STATUS_PLAY c = c + 1) ∧
    sleepTicks pausedMidway 10 100 = some 14 := by
  refine ⟨?_, ?_, by decide⟩
  · intro st c h
    simp [sleepStep, h]
  · intro c
    simp [sleepStep]

/-- C2 witness: a paused tick leaves the counter at 7, a playing tick advances
it to 8. -/
theorem sleep_pause_aware_witness :
    sleepStep STATUS_PAUSE 7 = 7 ∧ sleepStep STATUS_PLAY 7 = 8 :=
  ⟨sleep_pause_aware.1 STATUS_PAUSE 7 (by decide), sleep_pause_aware.2.1 7⟩

/-- Every normal exit of the sleep loop happens strictly after the tick index
it started from. -/
lemma sleepRun_ge (stateAt : Nat → Nat) (s : Nat) :
    ∀ fuel tick counter r : Nat,
      sleepRun stateAt s fuel tick counter = some r → tick + 1 ≤ r := by
  intro fuel
  induction fuel with
  | zero =>
    intro tick counter r h
    simp [sleepRun] at h
  | succ n ih =>
    intro tick counter r h
    simp only [sleepRun] at h
    by_cases hc : s ≤ sleepStep (stateAt (tick + 1)) counter
    · rw [if_pos hc] at h
      simp only [Option.some.injEq] at h
      omega
    · rw [if_neg hc] at h
      have := ih (tick + 1) (sleepStep (stateAt (tick + 1)) counter) r h
      omega

/-- C10: the wait never returns without consuming at least one full tick; in
particular `targetSeconds = 0` consumes exactly one tick, for every state
sequence. -/
theorem sleep_consumes_tick :
    (∀ (stateAt : Nat → Nat) (fuel : Nat), sleepTicks stateAt 0 (fuel + 1) = some 1) ∧
    (∀ (stateAt : Nat → Nat) (s fuel r : Nat),
      sleepTicks stateAt s fuel = some r → 1 ≤ r) := by
  constructor
  · intro stateAt fuel
    simp [sleepTicks, sleepRun]
  · intro stateAt s fuel r h
    simpa using sleepRun_ge stateAt s fuel 0 0 r h

/-- C10 witness: a wait that exits at tick 2 indeed consumed at least one
tick. -/
theorem sleep_consumes_tick_witness : (1 : Nat) ≤ 2 :=
  sleep_consumes_tick.2 (fun _ => STATUS_PLAY) 2 50 2 (by decide)

/-- C9: the interval computation subtracts `serverTime` from `finishSong` as
uint64, so whenever `serverTime` exceeds `finishSong` (by less than
`2^64 - 1800`) the difference wraps to a value above 1800 and the interval is
the 5-second fallback. -/
theorem wraparound_interval :
    ∀ f s : Nat, f < U64 → s < U64 → f < s → s - f < U64 - 1800 →
      1800 < subU64 f s ∧ nextFetchOnSuccess f s = 5 := by
  intro f s h1 h2 h3 h4
  have key : 1800 < subU64 f s := by
    simp only [subU64, U64] at *
    omega
  refine ⟨key, ?_⟩
  simp only [nextFetchOnSuccess]
  rw [if_pos (Or.inr key)]

/-- C9 witness: reversed timestamps 10/20 wrap above the clamp band and give
interval 5. -/
theorem wraparound_interval_witness :
    1800 < subU64 10 20 ∧ nextFetchOnSuccess 10 20 = 5 :=
  wraparound_interval 10 20 (by decide) (by decide) (by decide) (by decide)

/-- C8: toggle semantics of the hotkey handler.  From `Stopped` or `Paused`
the resume path runs and the state becomes `Playing`; from `Playing` the pause
path runs and the state becomes `Paused`. -/
theorem toggle_semantics :
    ∀ st : Go101,
      ((st.status = STATUS_STOP ∨ st.status = STATUS_PAUSE) →
        toggle st = resume st ∧ (toggle st).status = STATUS_PLAY) ∧
      (st.status = STATUS_PLAY →
        toggle st = pause st ∧ (toggle st).status = STATUS_PAUSE) := by
  intro st
  constructor
  · intro h
    have ht : toggle st = resume st := by
      simp only [toggle]
      rw [if_pos h]
    exact ⟨ht, by rw [ht]; rfl⟩
  · intro h
    have hn : ¬ (st.status = STATUS_STOP ∨ st.status = STATUS_PAUSE) := by
      rw [h]; decide
    have ht : toggle st = pause st := by
      simp only [toggle]
      rw [if_neg hn]
    exact ⟨ht, by rw [ht]; rfl⟩

/-- A concrete stopped player state. -/
def stStopped : Go101 := ⟨⟨0, [], [], [], [], []⟩, 0, STATUS_STOP, 0⟩

/-- C8 witness: toggling the stopped state runs the resume path and yields
`Playing`. -/
theorem toggle_semantics_witness :
    toggle stStopped = resume stStopped ∧ (toggle stStopped).status = STATUS_PLAY :=
  (toggle_semantics stStopped).1 (Or.inl rfl)

/-- C3: in one iteration of the playing loop on a successful fetch, a
stop-and-restart together with exactly one notification happens if and only
if the fetched track uid differs from the last uid that triggered a
(re)start; on equality the state is just the fetched state, and after a
restart the recorded uid is the fetched one. -/
theorem track_change_iff :
    ∀ (st : Go101) (ti : TrackInfo) (a : TrackAudio) (rest : List TrackAudio),
      ti.result.about.audio = a :: rest →
      (((loopIter st (.response 200 (.parsed ti))).2.1 = true ↔
          a.trackUid ≠ st.trackUid) ∧
       ((loopIter st (.response 200 (.parsed ti))).2.2 =
          if a.trackUid = st.trackUid then 0 else 1) ∧
       (a.trackUid = st.trackUid →
          (loopIter st (.response 200 (.parsed ti))).1 =
            fetchChannelInfo st (.response 200 (.parsed ti))) ∧
       (a.trackUid ≠ st.trackUid →
          (loopIter st (.response 200 (.parsed ti))).1 =
            play (stopPlay (fetchChannelInfo st (.response 200 (.parsed ti)))) ∧
          (loopIter st (.response 200 (.parsed ti))).1.trackUid = a.trackUid)) := by
  intro st ti a rest h
  obtain ⟨js, ⟨⟨jt, ja, jau, ⟨jalT, jalR⟩⟩, ⟨jss, jfs, jsv⟩⟩, je⟩ := ti
  simp only at h
  subst h
  by_cases hEq : a.trackUid = st.trackUid
  · have hcond : ¬ (st.trackUid ≠ a.trackUid) := by omega
    refine ⟨?_, ?_, ?_, ?_⟩
    · simp [loopIter, fetchChannelInfo, hcond, hEq]
    · simp [loopIter, fetchChannelInfo, hcond, hEq]
    · intro _
      simp [loopIter, fetchChannelInfo, hcond]
    · intro hne
      exact absurd hEq hne
  · have hcond : st.trackUid ≠ a.trackUid := by omega
    refine ⟨?_, ?_, ?_, ?_⟩
    · simp [loopIter, fetchChannelInfo, hcond, hEq]
    · simp [loopIter, fetchChannelInfo, hcond, hEq]
    · intro he
      exact absurd he hEq
    · intro _
      refine ⟨by simp [loopIter, fetchChannelInfo, hcond], ?_⟩
      simp [loopIter, fetchChannelInfo, hcond, play, stopPlay, pause, STATUS_PAUSE]
      split_ifs <;> rfl

/-- A concrete playing state whose last (re)start uid is 7. -/
def stA : Go101 := ⟨⟨7, [], [], [], [], []⟩, 7, STATUS_PLAY, 0⟩

/-- A concrete audio asset with uid 9. -/
def audioB : TrackAudio := ⟨9, "/b.mp3".data⟩

/-- A concrete envelope whose first audio asset is `audioB`. -/
def tiB : TrackInfo := ⟨1, ⟨⟨[], [], [audioB], ⟨[], []⟩⟩, ⟨0, 1100, 1000⟩⟩, 0⟩

/-- C3 witness: fetching uid 9 over last uid 7 restarts, notifies once, and
records uid 9. -/
theorem track_change_iff_witness :
    (((loopIter stA (.response 200 (.parsed tiB))).2.1 = true ↔
        audioB.trackUid ≠ stA.trackUid) ∧
     ((loopIter stA (.response 200 (.parsed tiB))).2.2 =
        if audioB.trackUid = stA.trackUid then 0 else 1) ∧
     (audioB.trackUid = stA.trackUid →
        (loopIter stA (.response 200 (.parsed tiB))).1 =
          fetchChannelInfo stA (.response 200 (.parsed tiB))) ∧
     (audioB.trackUid ≠ stA.trackUid →
        (loopIter stA (.response 200 (.parsed tiB))).1 =
          play (stopPlay (fetchChannelInfo stA (.response 200 (.parsed tiB)))) ∧
        (loopIter stA (.response 200 (.parsed tiB))).1.trackUid = audioB.trackUid)) :=
  track_change_iff stA tiB audioB [] rfl

/-- A concrete playing state retaining track uid 7 and interval 42. -/
def stC : Go101 := ⟨⟨7, [], [], [], [], []⟩, 7, STATUS_PLAY, 42⟩

/-- A concrete well-formed envelope: uid 42, one audio asset, diff 100. -/
def tiC : TrackInfo := ⟨0, ⟨⟨[], [], [⟨42, "/song.mp3".data⟩], ⟨[], []⟩⟩, ⟨0, 1100, 1000⟩⟩, 7⟩

/-- C4 counterexample: a response with non-success HTTP status 500 whose body
parses to a track envelope is NOT treated as a failure — the interval is not
set to 5 and the retained current track changes, because `FetchChannelInfo`
never inspects the status code. -/
theorem fetch_failure_counterexample :
    ¬ ((fetchChannelInfo stC (.response 500 (.parsed tiC))).nextFetch = 5 ∧
       (fetchChannelInfo stC (.response 500 (.parsed tiC))).currentTrack.trackUid =
         stC.currentTrack.trackUid) := by
  decide

/-- C4 (amended): on every fetch failure the code can detect — transport
error, malformed or empty JSON, empty audio-asset list — the next interval is
set to exactly 5 and every other field is unchanged; and the HTTP status code
never influences the result of a fetch. -/
theorem fetch_failure_fallback :
    (∀ st : Go101, fetchChannelInfo st .netError = { st with nextFetch := 5 }) ∧
    (∀ (st : Go101) (code : Nat),
      fetchChannelInfo st (.response code .malformed) = { st with nextFetch := 5 }) ∧
    (∀ (st : Go101) (code : Nat) (ti : TrackInfo), ti.result.about.audio = [] →
      fetchChannelInfo st (.response code (.parsed ti)) = { st with nextFetch := 5 }) ∧
    (∀ (st : Go101) (c1 c2 : Nat) (body : FetchBody),
      fetchChannelInfo st (.response c1 body) = fetchChannelInfo st (.response c2 body)) := by
  refine ⟨fun st => rfl, fun st code => rfl, ?_, ?_⟩
  · intro st code ti h
    obtain ⟨js, ⟨⟨jt, ja, jau, ⟨jalT, jalR⟩⟩, ⟨jss, jfs, jsv⟩⟩, je⟩ := ti
    simp only at h
    subst h
    rfl
  · intro st c1 c2 body
    cases body with
    | malformed => rfl
    | parsed ti => rfl

/-- An envelope with an empty audio list. -/
def tiEmpty : TrackInfo := ⟨0, ⟨⟨[], [], [], ⟨[], []⟩⟩, ⟨0, 0, 0⟩⟩, 0⟩

/-- C4 witness: a parsed body with an empty audio list only sets the interval
to 5. -/
theorem fetch_failure_fallback_witness :
    fetchChannelInfo stA (.response 404 (.parsed tiEmpty)) = { stA with nextFetch := 5 } :=
  fetch_failure_fallback.2.2.1 stA 404 tiEmpty rfl

/-- `List.isPrefixOf` on characters agrees with list decomposition. -/
lemma isPrefixOf_eq : ∀ p l : List Char, p.isPrefixOf l = true ↔ ∃ t, l = p ++ t := by
  intro p
  induction p with
  | nil =>
    intro l
    simp [List.isPrefixOf]
  | cons a p ih =>
    intro l
    cases l with
    | nil => simp [List.isPrefixOf]
    | cons b l =>
      simp only [List.isPrefixOf, Bool.and_eq_true, beq_iff_eq, List.cons_append]
      constructor
      · rintro ⟨rfl, hp⟩
        obtain ⟨t, rfl⟩ := (ih l).mp hp
        exact ⟨t, rfl⟩
      · rintro ⟨t, ht⟩
        injection ht with h1 h2
        exact ⟨h1.symm, (ih l).mpr ⟨t, h2⟩⟩

/-- The marker occurs with one more (non-newline) character somewhere in `l`. -/
def SpecMarker (l : List Char) : Prop :=
  ∃ a c b, l = a ++ httpMarker ++ c :: b ∧ c ≠ '\n'

/-- The head-anchored regexp test agrees with decomposition at the head. -/
lemma matchAt_iff (l : List Char) :
    matchAt l = true ↔ ∃ c b, l = httpMarker ++ c :: b ∧ c ≠ '\n' := by
  constructor
  · intro h
    unfold matchAt at h
    cases hd : l.drop httpMarker.length with
    | nil => rw [hd] at h; simp at h
    | cons c t =>
      rw [hd] at h
      simp only [Bool.and_eq_true, bne_iff_ne] at h
      obtain ⟨hp, hc⟩ := h
      obtain ⟨u, hu⟩ := (isPrefixOf_eq httpMarker l).mp hp
      refine ⟨c, t, ?_, hc⟩
      have hdl : (httpMarker ++ u).drop httpMarker.length = u := List.drop_left httpMarker u
      rw [hu] at hd
      rw [hdl] at hd
      rw [hu, hd]
  · rintro ⟨c, b, rfl, hc⟩
    have h1 : (httpMarker ++ c :: b).drop httpMarker.length = c :: b :=
      List.drop_left httpMarker (c :: b)
    have h2 : httpMarker.isPrefixOf (httpMarker ++ c :: b) = true :=
      (isPrefixOf_eq httpMarker (httpMarker ++ c :: b)).mpr ⟨c :: b, rfl⟩
    unfold matchAt
    rw [h1, h2]
    simpa using hc

/-- Decomposing an occurrence of the marker in a cons cell. -/
lemma specMarker_cons (x : Char) (rest : List Char) :
    SpecMarker (x :: rest) ↔
      (∃ c b, x :: rest = httpMarker ++ c :: b ∧ c ≠ '\n') ∨ SpecMarker rest := by
  constructor
  · rintro ⟨a, c, b, h, hc⟩
    cases a with
    | nil => exact Or.inl ⟨c, b, by simpa using h, hc⟩
    | cons y a =>
      simp only [List.cons_append] at h
      injection h with h1 h2
      exact Or.inr ⟨a, c, b, h2, hc⟩
  · rintro (⟨c, b, h, hc⟩ | ⟨a, c, b, h, hc⟩)
    · exact ⟨[], c, b, by simpa using h, hc⟩
    · exact ⟨x :: a, c, b, by simp [List.cons_append, h], hc⟩

/-- The search `FindStringSubmatch` performs agrees with the declarative
"the marker plus one non-newline character occurs somewhere". -/
lemma hasHttpMatch_iff : ∀ l : List Char, hasHttpMatch l = true ↔ SpecMarker l := by
  intro l
  induction l with
  | nil =>
    constructor
    · intro h
      simp [hasHttpMatch] at h
    · rintro ⟨a, c, b, h, _⟩
      have hlen := congrArg List.length h
      have h5 : httpMarker.length = 5 := by decide
      simp [List.length_append, h5] at hlen
      exfalso
      omega
  | cons x rest ih =>
    simp only [hasHttpMatch, Bool.or_eq_true, matchAt_iff, ih, specMarker_cons]

/-- C5 (amended): the origin is prepended exactly when the filename does not
contain the marker `http:` followed by a (non-newline) character anywhere —
the regexp is unanchored, so the marker need not be leading. -/
theorem origin_prepend_iff :
    ∀ f : List Char,
      (SpecMarker f → addOrigin f = f) ∧
      (¬ SpecMarker f → addOrigin f = origin ++ f) := by
  intro f
  constructor
  · intro h
    have hb : hasHttpMatch f = true := (hasHttpMatch_iff f).mpr h
    simp [addOrigin, hb]
  · intro h
    have hb : hasHttpMatch f = false := by
      cases hB : hasHttpMatch f
      · rfl
      · exact absurd ((hasHttpMatch_iff f).mp hB) h
    simp [addOrigin, hb]

/-- C5 witness: a filename carrying the marker is untouched; a marker-free
filename gets the origin. -/
theorem origin_prepend_iff_witness :
    addOrigin "http:a".data = "http:a".data ∧
    addOrigin "/a.mp3".data = origin ++ "/a.mp3".data :=
  ⟨(origin_prepend_iff "http:a".data).1 ⟨[], 'a', [], by decide, by decide⟩,
   (origin_prepend_iff "/a.mp3".data).2
     (fun h => absurd ((hasHttpMatch_iff "/a.mp3".data).mpr h) (by decide))⟩

/-- A filename that contains `http:` in its middle but not at its head. -/
def relName : List Char := "/xhttp:y".data

/-- C5 counterexample: `relName` does not match a leading `http:` marker, yet
the origin is NOT prepended, because the regexp matches anywhere. -/
theorem origin_prepend_counterexample :
    matchAt relName = false ∧ addOrigin relName = relName ∧
    addOrigin relName ≠ origin ++ relName := by
  decide

/-- Skipping inside the occurrence counter is dropping. -/
lemma countFragSkip_drop : ∀ (l : List Char) (n : Nat),
    countFragSkip n l = countFragSkip 0 (l.drop n) := by
  intro l
  induction l with
  | nil =>
    intro n
    cases n <;> simp [countFragSkip]
  | cons c rest ih =>
    intro n
    cases n with
    | zero => simp
    | succ m =>
      simpa [countFragSkip] using ih m

/-- A string in which the regexp finds exactly two occurrences of the
fragment splits around its first occurrence; deleting that occurrence leaves
a tail still containing at least one occurrence. -/
lemma count_two_split :
    ∀ u : List Char, countFrag u = 2 →
      ∃ a b, u = a ++ fragment ++ b ∧ replaceFirstFrag u = a ++ b ∧
        1 ≤ countFrag b := by
  intro u
  induction u with
  | nil =>
    intro h
    simp [countFrag, countFragSkip] at h
  | cons c rest ih =>
    intro h
    by_cases hp : fragment.isPrefixOf (c :: rest) = true
    · obtain ⟨t, ht⟩ := (isPrefixOf_eq fragment (c :: rest)).mp hp
      have hdrop : rest.drop (fragment.length - 1) = t := by
        cases hFrag : fragment with
        | nil => exact absurd hFrag (by decide)
        | cons f0 ft =>
          rw [hFrag, List.cons_append] at ht
          injection ht with hc hrest
          rw [hrest]
          simp [List.drop_left]
      have hcount : countFrag (c :: rest) = 1 + countFrag t := by
        show countFragSkip 0 (c :: rest) = 1 + countFrag t
        simp only [countFragSkip]
        rw [if_pos hp, countFragSkip_drop rest (fragment.length - 1), hdrop]
        rfl
      have ht1 : countFrag t = 1 := by
        rw [hcount] at h
        omega
      refine ⟨[], t, ?_, ?_, by omega⟩
      · simpa using ht
      · simp only [List.nil_append]
        show replaceFirstFrag (c :: rest) = t
        simp only [replaceFirstFrag]
        rw [if_pos hp]
        exact hdrop
    · have hcount : countFrag (c :: rest) = countFrag rest := by
        show countFragSkip 0 (c :: rest) = countFragSkip 0 rest
        simp only [countFragSkip]
        rw [if_neg hp]
      rw [hcount] at h
      obtain ⟨a, b, h1, h2, h3⟩ := ih h
      refine ⟨c :: a, b, ?_, ?_, h3⟩
      · simp [List.cons_append, h1]
      · show replaceFirstFrag (c :: rest) = (c :: a) ++ b
        simp only [replaceFirstFrag]
        rw [if_neg hp, h2]
        simp [List.cons_append]

/-- C6 (amended): when the regexp counts anything other than exactly two
occurrences of the fragment, the URL is unchanged; when it counts exactly
two, the first occurrence is deleted and the result still contains the
fragment — exactly once except when the deletion junction itself recreates
it. -/
theorem collapse_double_policy :
    (∀ u : List Char, countFrag u ≠ 2 → collapseDouble u = u) ∧
    (∀ u : List Char, countFrag u = 2 →
      ∃ a b, u = a ++ fragment ++ b ∧ collapseDouble u = a ++ b ∧
        1 ≤ countFrag b) := by
  constructor
  · intro u h
    simp [collapseDouble, h]
  · intro u h
    obtain ⟨a, b, h1, h2, h3⟩ := count_two_split u h
    exact ⟨a, b, h1, by simp [collapseDouble, h, h2], h3⟩

/-- A URL holding the fragment twice whose collapse recreates the fragment at
the deletion junction. -/
def doubleUrl : List Char :=
  ("/vardata/modules/musicdb/fil".data ++ fragment) ++ ("es/".data ++ fragment)

/-- C6 witness: a fragment-free URL is unchanged, and `doubleUrl` splits
around its first occurrence. -/
theorem collapse_double_policy_witness :
    collapseDouble "/a.mp3".data = "/a.mp3".data ∧
    (∃ a b, doubleUrl = a ++ fragment ++ b ∧ collapseDouble doubleUrl = a ++ b ∧
      1 ≤ countFrag b) :=
  ⟨collapse_double_policy.1 "/a.mp3".data (by decide),
   collapse_double_policy.2 doubleUrl (by decide)⟩

/-- C6 counterexample: `doubleUrl` contains the fragment exactly twice, yet
after collapsing the result does not contain it exactly once — deleting the
first occurrence glues `.../fil` and `es/...` into a fresh occurrence. -/
theorem collapse_double_counterexample :
    countFrag doubleUrl = 2 ∧ countFrag (collapseDouble doubleUrl) ≠ 1 := by
  decide

/-- C7 (amended): normalization is idempotent for every filename whose
normalized form still matches the `http:` marker and does not contain the
fragment exactly twice. -/
theorem normalize_idempotent_unless :
    ∀ f : List Char, hasHttpMatch (normalizePlayUrl f) = true →
      countFrag (normalizePlayUrl f) ≠ 2 →
      normalizePlayUrl (normalizePlayUrl f) = normalizePlayUrl f := by
  intro f h1 h2
  have ha : addOrigin (normalizePlayUrl f) = normalizePlayUrl f := by
    simp [addOrigin, h1]
  show collapseDouble (addOrigin (normalizePlayUrl f)) = normalizePlayUrl f
  rw [ha]
  simp [collapseDouble, h2]

/-- C7 witness: a plain relative filename normalizes idempotently. -/
theorem normalize_idempotent_witness :
    normalizePlayUrl (normalizePlayUrl "/track.mp3".data) =
      normalizePlayUrl "/track.mp3".data :=
  normalize_idempotent_unless "/track.mp3".data (by decide) (by decide)

/-- A relative filename holding the fragment twice with the junction trap. -/
def doubleName : List Char :=
  ("/vardata/modules/musicdb/fil".data ++ fragment) ++
    ("es/".data ++ fragment) ++ ".mp3".data

/-- C7 counterexample: normalizing `doubleName` once yields a URL that again
contains the fragment exactly twice, so a second normalization collapses
further and idempotence fails. -/
theorem normalize_idempotent_counterexample :
    normalizePlayUrl (normalizePlayUrl doubleName) ≠ normalizePlayUrl doubleName := by
  decide

end Ply101
